import Mathlib

/-!
# Verification of the `agenda` CLI against its specification

A shallow embedding, in Lean 4, of the core logic of the `agenda` calendar
CLI (Go): the configuration store (`internal/configs/configs.go`), the
Morgen calendar provider (request construction, per-account fetch loop,
event normalization), the event post-processing pipeline (deduplication and
sorting in `runAgenda`, `main.go`), and the event formatter
(`NewEventFormatter` / `FormatEvent`, `main.go`).

Modelling conventions:
* Go strings are Lean `String`s; helpers over `List Char` mirror the byte
  level scanning that Go performs (all inputs of interest are ASCII).
* `time.Time` is modelled by `GoTime`: broken-out wall-clock fields plus a
  fixed zone offset in seconds east of UTC.  Go's monotonic clock reading
  is irrelevant here.  A `time.Location` is modelled by its offset at the
  instants of interest (a fixed-offset model of the IANA zone database,
  which itself is external data, passed in as a `String → Option Int`
  lookup).
* The filesystem is a map from path to file content; file contents written
  by `yaml.Marshal` and read back by `yaml.Unmarshal` are modelled at the
  level of the (de)serialized `Config` value: a stored file is either
  `parsable c` (well-formed YAML deserializing to `c`) or `malformed`.
  I/O faults of `os.MkdirAll`/`os.WriteFile` are out of scope.
* The HTTP transport is a function from the built request (or the account
  id that distinguishes requests) to a response; a response carries the
  status code, the raw body, and — as the model of `json.Decode` on that
  body — an optional decoded payload.
-/

/-! ## String helpers (Go `strings` package operations used by the source) -/

/-- Predicate `listHasPref l p`: true when `p` is a leading segment of `l`
(character-level prefix test). -/
def listHasPref : List Char → List Char → Bool
  | _, [] => true
  | [], _ :: _ => false
  | a :: as, b :: bs => a == b && listHasPref as bs

/-- Predicate `listHasSub l p`: true when `p` occurs contiguously inside `l`
(character-level substring test, the semantics of Go `strings.Contains`). -/
def listHasSub : List Char → List Char → Bool
  | [], pat => listHasPref [] pat
  | l@(_ :: t), pat => listHasPref l pat || listHasSub t pat

/-- Go `strings.Contains s pat`. -/
def strContainsSub (s pat : String) : Bool :=
  listHasSub s.data pat.data

/-- Replace the first occurrence of the (non-empty) pattern `pat` in `l` by
`rep`; if `pat` does not occur, return `l` unchanged.  Character-level core
of Go `strings.Replace(s, old, new, 1)` for non-empty `old`. -/
def listReplaceFirst (l pat rep : List Char) : List Char :=
  match l with
  | [] => []
  | c :: t =>
    if listHasPref l pat then rep ++ l.drop pat.length
    else c :: listReplaceFirst t pat rep

/-- Go `strings.Replace(s, old, new, 1)` (the source only uses it with the
non-empty pattern `"{API_KEY}"`). -/
def strReplaceFirst (s pat rep : String) : String :=
  ⟨listReplaceFirst s.data pat.data rep.data⟩

/-- Go `strings.Join(parts, ",")` as used for the `calendarIds` query value. -/
def strJoinComma : List String → String
  | [] => ""
  | [s] => s
  | s :: rest => s ++ "," ++ strJoinComma rest

/-! ## Configuration store (`internal/configs/configs.go`) -/

/-- Constant `CURRENT_CONFIG_VERSION uint64 = 1` (configs.go line 12). -/
def CURRENT_CONFIG_VERSION : Nat := 1

/-- Constant `CONFIG_FILE_NAME string = "agenda.conf"` (configs.go line 13). -/
def CONFIG_FILE_NAME : String := "agenda.conf"

/-- Structure `ProviderConfig` (configs.go lines 26-31): per-provider connection
settings.  The Go `map[string]string` of headers and the calendar ignore
list are association/plain lists. -/
structure ProviderConfig where
  baseURL : String
  headers : List (String × String)
  envAPIKey : String
  calendarsToIgnore : List String
  deriving DecidableEq, Repr

/-- Structure `Config` (configs.go lines 17-23): process-wide configuration.  The Go
`map[string]ProviderConfig` is an association list. -/
structure Config where
  provider : String
  timeFormat : String
  eventTemplate : String
  providers : List (String × ProviderConfig)
  version : Nat
  deriving DecidableEq, Repr

/-- The Go zero value of `Config` (what `var config Config` declares in
`ReadConfig`): empty strings, nil map, version 0. -/
def zeroConfig : Config :=
  { provider := ""
    timeFormat := ""
    eventTemplate := ""
    providers := []
    version := 0 }

/-- Function `DefaultConfig` (configs.go lines 34-55): the built-in default
configuration.  The event template's literal braces are written with
hex escapes; the string is exactly
`- {\x7b.StartTimeFormatted\x7d\x7d-...` from the source. -/
def DefaultConfig : Config :=
  { provider := "morgen"
    timeFormat := "15:04"
    eventTemplate := "- \x7b\x7b.StartTimeFormatted\x7d\x7d-\x7b\x7b.EndTimeFormatted\x7d\x7d: \x7b\x7b.Title\x7d\x7d"
    providers :=
      [("morgen",
        { baseURL := "https://api.morgen.so/v3"
          headers :=
            [("Authorization", "ApiKey \x7bAPI_KEY\x7d"),
             ("Content-Type", "application/json")]
          envAPIKey := "MORGEN_API_KEY"
          calendarsToIgnore := ["ignore_this_calendar"] })]
    version := CURRENT_CONFIG_VERSION }

/-- A stored configuration file, at the level the YAML layer exposes:
either well-formed YAML that `yaml.Unmarshal` deserializes to a `Config`,
or malformed bytes on which `yaml.Unmarshal` errors. -/
inductive ConfFile where
  | parsable (c : Config)
  | malformed
  deriving DecidableEq

/-- The filesystem: path → stored file (`none` = `os.Stat` reports
`IsNotExist`). -/
def FS : Type := String → Option ConfFile

/-- Errors surfaced by the embedded Go code (`error` values). -/
inductive GoErr where
  | statNotExist
  | configParse
  | missingApiKey (envVar : String)
  | requestFailed (status : Nat) (body : String)
  | decodeFailed
  deriving DecidableEq, Repr

/-- Models `configdir.LocalCache(CONFIG_FOLDER)` (configs.go line 129): the
platform per-user cache directory joined with the folder `"agenda"`.  The
actual directory is environment-dependent (XDG/AppData/...); it is one
fixed path for the whole process, modelled as this abstract constant. -/
def localCacheAgendaDir : String := "$LOCAL_CACHE/agenda"

/-- Functions `getConfigPath` / `getSystemConfigPath` (configs.go lines 127-140):
the fixed system configuration file path, `filepath.Join(dir, CONFIG_FILE_NAME)`
modelled as `dir ++ "/" ++ name` (`configdir.MakePath` directory creation is
fault-free in the model). -/
def getSystemConfigPath : String :=
  localCacheAgendaDir ++ "/" ++ CONFIG_FILE_NAME

/-- Function `DefaultConfigPath` (configs.go lines 58-60). -/
def DefaultConfigPath : String := getSystemConfigPath

/-- Function `WriteConfig` (configs.go lines 64-81): marshals `config` and writes it
to `getSystemConfigPath()` — note the function takes no path argument; the
write target is always the fixed system path.  Directory creation and the
write itself are modelled fault-free (the Go error paths are I/O faults). -/
def WriteConfig (fs : FS) (config : Config) : FS :=
  fun q => if q = getSystemConfigPath then some (.parsable config) else fs q

/-- Function `loadConfig` (configs.go lines 111-125): if the file exists, read it and
`yaml.Unmarshal` into `config` (which the caller zero-initialized); a parse
failure leaves `config` as it was and returns the error; a missing file is
a silent no-op. -/
def loadConfig (fs : FS) (configPath : String) (config : Config) :
    Config × Option GoErr :=
  match fs configPath with
  | some (.parsable c) => (c, none)
  | some .malformed => (config, some .configParse)
  | none => (config, none)

/-- Function `ReadConfig` (configs.go lines 87-108), returning the Go result pair
`(Config, error)` together with the filesystem after any writes.  Mirrors
the source exactly: on `os.IsNotExist`, it calls `WriteConfig(config)` with
the still-zero `config` and returns that zero config *together with the
non-nil stat error*; on a version mismatch it replaces the loaded contents
with `DefaultConfig()` and re-persists. -/
def ReadConfig (fs : FS) (path : String) : (Config × Option GoErr) × FS :=
  match fs path with
  | none => ((zeroConfig, some .statNotExist), WriteConfig fs zeroConfig)
  | some _ =>
    match loadConfig fs path zeroConfig with
    | (config, some e) => ((config, some e), fs)
    | (config, none) =>
      if config.version ≠ CURRENT_CONFIG_VERSION then
        ((DefaultConfig, none), WriteConfig fs DefaultConfig)
      else
        ((config, none), fs)

/-! ## Theorems: configuration store (claims C1, C7, C10) -/

/-- C1. The claim says: for a path with no configuration file, `ReadConfig`
constructs the *default* configuration, persists it *to that path*, and
returns it *with no error*.  The code does none of the three: evaluated on
an empty filesystem and the path `"/home/u/custom.conf"`, it returns the
zero-value `Config` (not `DefaultConfig`) paired with the non-nil stat
error, writes nothing at the requested path, and instead writes the zero
config at the fixed system path.  This contradicts `ReadConfig`'s own doc
comment ("If the file does not exist, it creates a default configuration
and writes it to the path") and makes `runAgenda` treat a first run as
fatal. -/
theorem c1_read_config_missing_file_bug :
    (ReadConfig (fun _ => none) "/home/u/custom.conf" =
      ((zeroConfig, some .statNotExist), WriteConfig (fun _ => none) zeroConfig))
    ∧ (ReadConfig (fun _ => none) "/home/u/custom.conf").2 "/home/u/custom.conf" = none
    ∧ (ReadConfig (fun _ => none) "/home/u/custom.conf").2 getSystemConfigPath
        = some (.parsable zeroConfig)
    ∧ zeroConfig ≠ DefaultConfig
    ∧ ((ReadConfig (fun _ => none) "/home/u/custom.conf").1.2).isSome = true := by
  refine ⟨?_, ?_, ?_, ?_, ?_⟩
  · rfl
  · decide
  · decide
  · decide
  · rfl

/-- C7. If the persisted configuration at `path` deserializes to a config
whose version differs from `CURRENT_CONFIG_VERSION`, then `ReadConfig`
discards the loaded contents, returns `DefaultConfig` with no error, and
re-persists `DefaultConfig` (at the system path). -/
theorem c7_version_mismatch_replaced_by_default
    (fs : FS) (path : String) (c : Config)
    (hfile : fs path = some (.parsable c))
    (hver : c.version ≠ CURRENT_CONFIG_VERSION) :
    (ReadConfig fs path).1 = (DefaultConfig, none)
    ∧ (ReadConfig fs path).2 getSystemConfigPath = some (.parsable DefaultConfig) := by
  have h : ReadConfig fs path = ((DefaultConfig, none), WriteConfig fs DefaultConfig) := by
    unfold ReadConfig loadConfig
    rw [hfile]
    simp [hver]
  rw [h]
  exact ⟨rfl, by simp [WriteConfig]⟩

/-- The branch analysis behind C10: `ReadConfig` only ever changes the
filesystem through `WriteConfig`, which targets the system path. -/
theorem readConfig_fs_outside_system_path (fs : FS) (path q : String)
    (hq : q ≠ getSystemConfigPath) :
    (ReadConfig fs path).2 q = fs q := by
  unfold ReadConfig loadConfig
  match h : fs path with
  | none => simp [WriteConfig, hq]
  | some (.parsable c) =>
    by_cases hv : c.version ≠ CURRENT_CONFIG_VERSION
    · simp [hv, WriteConfig, hq]
    · simp [hv]
  | some .malformed => simp

/-- Witness for C7 at a concrete input: a filesystem holding a version-0
config at `"/tmp/agenda.conf"`. -/
theorem c7_version_mismatch_replaced_by_default_witness :
    (ReadConfig
        (fun q => if q = "/tmp/agenda.conf" then some (.parsable zeroConfig) else none)
        "/tmp/agenda.conf").1 = (DefaultConfig, none) :=
  (c7_version_mismatch_replaced_by_default
    (fun q => if q = "/tmp/agenda.conf" then some (.parsable zeroConfig) else none)
    "/tmp/agenda.conf" zeroConfig (by decide) (by decide)).1

/-- C10. `WriteConfig` persists to the fixed system configuration path and
to nothing else (it takes no path argument at all), so any persisting that
`ReadConfig` triggers — for a missing file or a version mismatch — leaves
every path other than the system path, in particular a custom path being
read, untouched. -/
theorem c10_writes_go_to_system_path
    (fs : FS) (config : Config) (path q : String)
    (hq : q ≠ getSystemConfigPath) :
    WriteConfig fs config getSystemConfigPath = some (.parsable config)
    ∧ WriteConfig fs config q = fs q
    ∧ (ReadConfig fs path).2 q = fs q :=
  ⟨by simp [WriteConfig], by simp [WriteConfig, hq],
    readConfig_fs_outside_system_path fs path q hq⟩

/-- Witness for C10 at a concrete input. -/
theorem c10_writes_go_to_system_path_witness :
    WriteConfig (fun _ => none) DefaultConfig getSystemConfigPath
      = some (.parsable DefaultConfig)
    ∧ WriteConfig (fun _ => none) DefaultConfig "/tmp/other.conf" = none
    ∧ (ReadConfig (fun _ => none) "/tmp/other.conf").2 "/tmp/other.conf" = none :=
  c10_writes_go_to_system_path (fun _ => none) DefaultConfig
    "/tmp/other.conf" "/tmp/other.conf" (by decide)

/-! ## Time model (`time.Time` with a fixed zone offset)

Go's `time.Time` carries an absolute instant plus a `Location`; the parts
of it the source uses are the broken-out wall-clock fields in the time's
zone, the zone offset, instant comparison (`Before`), instant arithmetic
(`Add`, `Sub`), zone conversion (`In`/`Local`), and layout-based
formatting.  `GoTime` stores the wall-clock fields together with the zone
offset (seconds east of UTC); a zone is modelled by its fixed offset. -/

structure GoTime where
  year : Int
  month : Nat
  day : Nat
  hour : Nat
  minute : Nat
  sec : Nat
  nsec : Nat
  offsetSec : Int
  deriving DecidableEq, Repr

/-- Gregorian leap-year rule (as in Go `time.Date` normalization). -/
def isLeapYear (y : Int) : Bool :=
  y % 4 = 0 && (y % 100 ≠ 0 || y % 400 = 0)

/-- Length of month `m` (1-12) in year `y`. -/
def daysInMonth (y : Int) (m : Nat) : Nat :=
  match m with
  | 2 => if isLeapYear y then 29 else 28
  | 4 => 30
  | 6 => 30
  | 9 => 30
  | 11 => 30
  | _ => 31

/-- Days since the Unix epoch of the civil date `(y, m, d)` (standard
era-based civil-calendar algorithm; `/` on `Int` with positive divisors is
floor division here). -/
def daysFromCivil (y : Int) (m : Nat) (d : Nat) : Int :=
  let y' : Int := if m ≤ 2 then y - 1 else y
  let era : Int := y' / 400
  let yoe : Int := y' - era * 400
  let mp : Int := ((m : Int) + 9) % 12
  let doy : Int := (153 * mp + 2) / 5 + (d : Int) - 1
  let doe : Int := yoe * 365 + yoe / 4 - yoe / 100 + doy
  era * 146097 + doe - 719468

def nanosPerSec : Int := 1000000000
def nanosPerDay : Int := 86400 * nanosPerSec

/-- The absolute instant of a `GoTime` in nanoseconds since the Unix epoch
(Go `UnixNano`): wall-clock seconds minus the zone offset. -/
def unixNano (t : GoTime) : Int :=
  (daysFromCivil t.year t.month t.day * 86400
    + (t.hour : Int) * 3600 + (t.minute : Int) * 60 + (t.sec : Int)
    - t.offsetSec) * nanosPerSec + (t.nsec : Int)

/-- Go `a.Before(b)`: instant comparison (the monotonic/wall distinction is
irrelevant for parsed times). -/
def goBefore (a b : GoTime) : Bool :=
  unixNano a < unixNano b

/-- Go `a.Sub(b)` as a `time.Duration` in nanoseconds (overflow saturation
of `time.Duration` is out of range for the dates in play and not
modelled). -/
def goSub (a b : GoTime) : Int :=
  unixNano a - unixNano b

/-- Move one civil day forward (wall clock unchanged). -/
def nextDay (t : GoTime) : GoTime :=
  if t.day + 1 ≤ daysInMonth t.year t.month then { t with day := t.day + 1 }
  else if t.month + 1 ≤ 12 then { t with month := t.month + 1, day := 1 }
  else { t with year := t.year + 1, month := 1, day := 1 }

/-- Move one civil day backward (wall clock unchanged). -/
def prevDay (t : GoTime) : GoTime :=
  if 2 ≤ t.day then { t with day := t.day - 1 }
  else if 2 ≤ t.month then { t with month := t.month - 1, day := daysInMonth t.year (t.month - 1) }
  else { t with year := t.year - 1, month := 12, day := 31 }

def shiftDaysFwd : GoTime → Nat → GoTime
  | t, 0 => t
  | t, n + 1 => shiftDaysFwd (nextDay t) n

def shiftDaysBwd : GoTime → Nat → GoTime
  | t, 0 => t
  | t, n + 1 => shiftDaysBwd (prevDay t) n

/-- Go `t.Add(d)`: advance the instant by `d` nanoseconds, keeping the
zone; on the wall-clock representation this shifts the time-of-day by `d`
and rolls the civil date as needed. -/
def goAdd (t : GoTime) (d : Int) : GoTime :=
  let wall : Int :=
    ((t.hour : Int) * 3600 + (t.minute : Int) * 60 + (t.sec : Int)) * nanosPerSec
      + (t.nsec : Int) + d
  let dayShift : Int := wall / nanosPerDay
  let rem : Nat := (wall % nanosPerDay).toNat
  let t' : GoTime :=
    { t with
      hour := rem / 3600000000000
      minute := rem % 3600000000000 / 60000000000
      sec := rem % 60000000000 / 1000000000
      nsec := rem % 1000000000 }
  if 0 ≤ dayShift then shiftDaysFwd t' dayShift.toNat else shiftDaysBwd t' (-dayShift).toNat

/-- Go `t.In(loc)` for a zone of fixed offset `off` (in particular
`t.Local()` / `t.In(time.Local)` with the process-local offset): same
instant, wall clock re-expressed in the new zone. -/
def goIn (off : Int) (t : GoTime) : GoTime :=
  { goAdd t ((off - t.offsetSec) * nanosPerSec) with offsetSec := off }

/-- Models `time.Date(t.Year(), t.Month(), t.Day(), 0, 0, 0, 0, t.Location())`
(main.go line 593): local midnight of `t`'s civil date. -/
def startOfDay (t : GoTime) : GoTime :=
  { t with hour := 0, minute := 0, sec := 0, nsec := 0 }

/-! ### Layout-based formatting (`time.Time.Format`)

The embedding supports the layout verbs the program's layouts use
(`2006`, `01`, `02`, `15`, `03`, `3`, `04`, `4`, `05`, `5`, `PM`, `pm`,
`Z07:00`, `Z0700`, `-07:00`, `-0700`); any other character passes through
literally, as in Go. -/

def natPad2 (n : Nat) : String :=
  if n < 10 then "0" ++ toString n else toString n

/-- The `2006` verb: the year, sign-prefixed, zero-padded to four digits. -/
def yearString (y : Int) : String :=
  let a := y.natAbs
  let pad := if a < 10 then "000" else if a < 100 then "00" else if a < 1000 then "0" else ""
  (if y < 0 then "-" else "") ++ pad ++ toString a

/-- The `-07:00` verb: signed `hh:mm` zone offset. -/
def offsetColonString (off : Int) : String :=
  let a := off.natAbs
  (if off < 0 then "-" else "+") ++ natPad2 (a / 3600) ++ ":" ++ natPad2 (a % 3600 / 60)

/-- The `-0700` verb: signed `hhmm` zone offset. -/
def offsetNoColonString (off : Int) : String :=
  let a := off.natAbs
  (if off < 0 then "-" else "+") ++ natPad2 (a / 3600) ++ natPad2 (a % 3600 / 60)

/-- Hour on the 12-hour clock (the `3` / `03` verbs). -/
def hour12 (h : Nat) : Nat :=
  if h % 12 = 0 then 12 else h % 12

def goFormatAux (t : GoTime) : List Char → List Char
  | '2' :: '0' :: '0' :: '6' :: rest => (yearString t.year).data ++ goFormatAux t rest
  | 'Z' :: '0' :: '7' :: ':' :: '0' :: '0' :: rest =>
      (if t.offsetSec = 0 then "Z" else offsetColonString t.offsetSec).data ++ goFormatAux t rest
  | 'Z' :: '0' :: '7' :: '0' :: '0' :: rest =>
      (if t.offsetSec = 0 then "Z" else offsetNoColonString t.offsetSec).data ++ goFormatAux t rest
  | '-' :: '0' :: '7' :: ':' :: '0' :: '0' :: rest =>
      (offsetColonString t.offsetSec).data ++ goFormatAux t rest
  | '-' :: '0' :: '7' :: '0' :: '0' :: rest =>
      (offsetNoColonString t.offsetSec).data ++ goFormatAux t rest
  | '1' :: '5' :: rest => (natPad2 t.hour).data ++ goFormatAux t rest
  | '0' :: '1' :: rest => (natPad2 t.month).data ++ goFormatAux t rest
  | '0' :: '2' :: rest => (natPad2 t.day).data ++ goFormatAux t rest
  | '0' :: '3' :: rest => (natPad2 (hour12 t.hour)).data ++ goFormatAux t rest
  | '0' :: '4' :: rest => (natPad2 t.minute).data ++ goFormatAux t rest
  | '0' :: '5' :: rest => (natPad2 t.sec).data ++ goFormatAux t rest
  | 'P' :: 'M' :: rest => (if 12 ≤ t.hour then "PM" else "AM").data ++ goFormatAux t rest
  | 'p' :: 'm' :: rest => (if 12 ≤ t.hour then "pm" else "am").data ++ goFormatAux t rest
  | '3' :: rest => (toString (hour12 t.hour)).data ++ goFormatAux t rest
  | '4' :: rest => (toString t.minute).data ++ goFormatAux t rest
  | '5' :: rest => (toString t.sec).data ++ goFormatAux t rest
  | c :: rest => c :: goFormatAux t rest
  | [] => []

/-- Go `t.Format(layout)` over the supported verbs. -/
def goFormat (t : GoTime) (layout : String) : String :=
  ⟨goFormatAux t layout.data⟩

/-- The `time.RFC3339` layout constant. -/
def RFC3339 : String := "2006-01-02T15:04:05Z07:00"

/-- Go `t.Format(time.RFC3339)`. -/
def formatRFC3339 (t : GoTime) : String :=
  goFormat t RFC3339

/-- Sanity: RFC3339 rendering of a concrete UTC time and of an offset time. -/
theorem sanity_formatRFC3339 :
    formatRFC3339 ⟨2024, 1, 2, 9, 5, 0, 0, 0⟩ = "2024-01-02T09:05:00Z"
    ∧ formatRFC3339 ⟨2024, 12, 31, 23, 59, 7, 0, -18000⟩ = "2024-12-31T23:59:07-05:00" := by
  constructor <;> decide

/-! ## Canonical event model (`internal/models/models.go`) -/

/-- Structure `CalendarEvent` (models.go lines 6-14): the canonical,
provider-agnostic event. -/
structure CalendarEvent where
  id : String
  title : String
  startTime : GoTime
  endTime : GoTime
  description : String
  location : String
  attendees : List String
  deriving DecidableEq, Repr

/-! ## Event post-processing (`runAgenda`, main.go lines 137-158) -/

/-- The deduplication key (main.go line 139):
`fmt.Sprintf("%s-%s", event.Title, event.StartTime.Format(time.RFC3339))`.
Note that `time.RFC3339` renders at whole-second precision, so the key
forgets sub-second precision of the start time. -/
def eventKey (event : CalendarEvent) : String :=
  event.title ++ "-" ++ formatRFC3339 event.startTime

/-- The `uniqueEvents` map-filling loop (main.go lines 137-143).  The Go
`map[string]models.CalendarEvent` is modelled by an association list
holding the map's contents; entries are appended in first-insertion order
(the Go map is unordered — its iteration order is a separate parameter of
the pipeline, see `postProcess`). -/
def uniqueEventsMap : List CalendarEvent → List (String × CalendarEvent) →
    List (String × CalendarEvent)
  | [], m => m
  | e :: rest, m =>
    if (m.lookup (eventKey e)).isSome then uniqueEventsMap rest m
    else uniqueEventsMap rest (m ++ [(eventKey e, e)])

/-- Contents of the `uniqueEvents` map after the loop. -/
def uniqueEvents (events : List CalendarEvent) : List (String × CalendarEvent) :=
  uniqueEventsMap events []

/-- Specification-side deduplication: keep an event exactly when no earlier
event has the same deduplication key (first occurrence wins). -/
def keepFirstByKeyAux : List CalendarEvent → List (String × CalendarEvent) →
    List CalendarEvent
  | [], _ => []
  | e :: rest, seen =>
    if (seen.lookup (eventKey e)).isSome then keepFirstByKeyAux rest seen
    else e :: keepFirstByKeyAux rest (seen ++ [(eventKey e, e)])

/-- Events surviving deduplication, in first-occurrence order. -/
def keepFirstByKey (events : List CalendarEvent) : List CalendarEvent :=
  keepFirstByKeyAux events []

/-- The `sort.Slice` comparator (main.go lines 156-158):
`sortedEvents[i].StartTime.Local().Before(sortedEvents[j].StartTime.Local())`,
with the process-local zone modelled by the fixed offset `localOff`. -/
def sortLess (localOff : Int) (a b : CalendarEvent) : Bool :=
  goBefore (goIn localOff a.startTime) (goIn localOff b.startTime)

/-- The non-strict event order induced by the comparator: `a` may precede
`b` exactly when the comparator does not require `b` before `a`. -/
def sortLe (localOff : Int) (a b : CalendarEvent) : Prop :=
  sortLess localOff b a = false

instance (localOff : Int) : DecidableRel (sortLe localOff) := by
  intro a b
  unfold sortLe
  infer_instance

instance (localOff : Int) : IsTotal CalendarEvent (sortLe localOff) := by
  constructor
  intro a b
  simp only [sortLe, sortLess, goBefore, decide_eq_false_iff_not, not_lt]
  exact le_total _ _

instance (localOff : Int) : IsTrans CalendarEvent (sortLe localOff) := by
  constructor
  intro a b c
  simp only [sortLe, sortLess, goBefore, decide_eq_false_iff_not, not_lt]
  intro h1 h2
  exact le_trans h1 h2

/-- Post-processing after the `uniqueEvents` map is filled (main.go lines
150-158): the slice is rebuilt by ranging over the map — `iter` is the
map's contents in Go's (unspecified, effectively arbitrary) iteration
order — and then sorted in place by `sort.Slice` with the `Before`
comparator.  `sort.Slice` is an unstable comparison sort: its possible
outputs are exactly the sorted rearrangements of the input, all of which
are reached by composing the arbitrary iteration order with the stable
`List.insertionSort`. -/
def postProcess (localOff : Int) (iter : List (String × CalendarEvent)) :
    List CalendarEvent :=
  List.insertionSort (sortLe localOff) (iter.map Prod.snd)

/-! ## Morgen provider (`internal/providers`, main.go lines 409-685) -/

/-- Structure `morgenCalenderRights` (json `myRights`): read permission. -/
structure MorgenCalendarRights where
  canRead : Bool
  deriving DecidableEq, Repr

/-- Structure `morgenCalendar`: one calendar from the calendars-list
response. -/
structure MorgenCalendar where
  name : String
  accountId : String
  calendarRights : MorgenCalendarRights
  id : String
  color : String
  deriving DecidableEq, Repr

/-- Structure `morgenEvent`: one raw event from the events-list response
(start timestamp without offset, separate IANA zone name, ISO-8601
duration). -/
structure MorgenEvent where
  id : String
  title : String
  startTime : String
  duration : String
  timeZone : String
  endTime : String
  description : String
  location : String
  deriving DecidableEq, Repr

/-- Function `contains` (main.go lines 490-492), `slices.Contains`. -/
def goContains (list : List String) (target : String) : Bool :=
  list.contains target

/-- Structure modelling `*http.Request` as the source configures it: method,
URL, the `url.Values` query mapping (its `Encode()` percent-encoded string
is presentation of this mapping and is not modelled), and the header
mapping. -/
structure Request where
  method : String
  url : String
  query : List (String × String)
  headers : List (String × String)
  deriving DecidableEq, Repr

/-- Operation `Set` on an association list (the semantics of
`url.Values.Set` and `http.Header.Set`): replace the value at the key, or
append a fresh entry. -/
def assocSet : List (String × String) → String → String → List (String × String)
  | [], k, v => [(k, v)]
  | (a, b) :: rest, k, v =>
    if a = k then (k, v) :: rest else (a, b) :: assocSet rest k v

/-- The header-adding loop shared by `getCalendars` (main.go lines 540-546)
and the events loop (main.go lines 616-622): for each configured header,
substitute the API key for the first `{API_KEY}` occurrence — but only
when the header key is exactly `"Authorization"` — then `req.Header.Set`.
The Go map's headers have unique keys; iteration order does not affect the
resulting mapping. -/
def addConfigHeaders (req : Request) (headers : List (String × String))
    (apiKey : String) : Request :=
  headers.foldl
    (fun r kv =>
      let value :=
        if kv.1 = "Authorization" then strReplaceFirst kv.2 "\x7bAPI_KEY\x7d" apiKey
        else kv.2
      { r with headers := assocSet r.headers kv.1 value })
    req

/-- The calendars-list request of `getCalendars` (main.go lines 530-546):
`GET {baseURL}/calendars/list` with the configured headers. -/
def calendarsRequest (cfg : ProviderConfig) (apiKey : String) : Request :=
  addConfigHeaders
    { method := "GET"
      url := cfg.baseURL ++ "/calendars/list"
      query := []
      headers := [] }
    cfg.headers apiKey

/-- An HTTP response to the calendars-list request: status, raw body, and
the result of `json.Decode` on the body (`none` models a body the decoder
rejects; `some cals` models `morgenCalendarsResponse.Data.Calendars`). -/
structure CalendarsResponse where
  status : Nat
  body : String
  decoded : Option (List MorgenCalendar)

/-- An HTTP response to an events-list request, decoded to
`morgenEventsResponse.Data.Events`. -/
structure EventsResponse where
  status : Nat
  body : String
  decoded : Option (List MorgenEvent)

/-- Function `getCalendars` (main.go lines 524-568): check the API key,
issue the calendars-list request, fail on a non-200 status with the status
and body, decode, and return the calendar list.  The transport is the
function `net`. -/
def getCalendars (cfg : ProviderConfig) (apiKey : String)
    (net : Request → CalendarsResponse) : Except GoErr (List MorgenCalendar) :=
  if apiKey = "" then .error (.missingApiKey cfg.envAPIKey)
  else
    let resp := net (calendarsRequest cfg apiKey)
    if resp.status ≠ 200 then .error (.requestFailed resp.status resp.body)
    else
      match resp.decoded with
      | none => .error .decodeFailed
      | some cals => .ok cals

/-- The account-grouping loop (main.go lines 582-589): readable,
non-ignored calendars are grouped by owning account
(`accountCalendarMap[cal.AccountId] = append(..., cal.Id)`), modelled as
an association list in first-seen account order with calendar ids in
traversal order. -/
def addToGroup : List (String × List String) → String → String →
    List (String × List String)
  | [], aid, cid => [(aid, [cid])]
  | (a, ids) :: rest, aid, cid =>
    if a = aid then (a, ids ++ [cid]) :: rest
    else (a, ids) :: addToGroup rest aid cid

def accountCalendarMapAux (ignore : List String) :
    List MorgenCalendar → List (String × List String) → List (String × List String)
  | [], m => m
  | cal :: rest, m =>
    if cal.calendarRights.canRead && !(goContains ignore cal.name) then
      accountCalendarMapAux ignore rest (addToGroup m cal.accountId cal.id)
    else
      accountCalendarMapAux ignore rest m

def accountCalendarMap (calendars : List MorgenCalendar) (ignore : List String) :
    List (String × List String) :=
  accountCalendarMapAux ignore calendars []

/-- One per-account events-list request (main.go lines 601-622):
`GET {baseURL}/events/list` with query parameters `start` and `end` (the
day window rendered with `Format(time.RFC3339)`), `accountId`, and the
comma-joined `calendarIds`, plus the configured headers. -/
def eventsRequestFor (cfg : ProviderConfig) (apiKey : String)
    (startOfDayT endOfDayT : GoTime) (accountId : String)
    (calendarIds : List String) : Request :=
  let req : Request :=
    { method := "GET"
      url := cfg.baseURL ++ "/events/list"
      query := []
      headers := [] }
  let query := assocSet req.query "start" (formatRFC3339 startOfDayT)
  let query := assocSet query "end" (formatRFC3339 endOfDayT)
  let query := assocSet query "accountId" accountId
  let query := assocSet query "calendarIds" (strJoinComma calendarIds)
  addConfigHeaders { req with query := query } cfg.headers apiKey

/-- The per-account fetch loop of `GetTodaysEvents` (main.go lines
600-643): for each account group build the request, send it, abort the
whole fetch on a non-200 status (with the status and body) or on a decode
failure, otherwise append the account's events to the accumulator. -/
def fetchEventsLoop (cfg : ProviderConfig) (apiKey : String)
    (startOfDayT endOfDayT : GoTime) (net : Request → EventsResponse) :
    List (String × List String) → List MorgenEvent → Except GoErr (List MorgenEvent)
  | [], acc => .ok acc
  | (accountId, calendarIds) :: rest, acc =>
    let resp := net (eventsRequestFor cfg apiKey startOfDayT endOfDayT accountId calendarIds)
    if resp.status ≠ 200 then .error (.requestFailed resp.status resp.body)
    else
      match resp.decoded with
      | none => .error .decodeFailed
      | some evs => fetchEventsLoop cfg apiKey startOfDayT endOfDayT net rest (acc ++ evs)

/-! ### Parsing of raw event fields -/

/-- Reads exactly `n` further digits onto the accumulator. -/
def readFixedNat : Nat → Nat → List Char → Option (Nat × List Char)
  | 0, acc, l => some (acc, l)
  | n + 1, acc, c :: l =>
    if c.isDigit then readFixedNat n (acc * 10 + (c.toNat - 48)) l else none
  | _ + 1, _, [] => none

/-- Consumes the expected literal character. -/
def expectChar (c : Char) : List Char → Option (List Char)
  | d :: l => if d = c then some l else none
  | [] => none

/-- Reads an optional fractional-second field: a dot followed by one to
nine digits, scaled to nanoseconds.  Go's `time.Parse` accepts a
fractional second after the seconds field even when the layout (here
`"2006-01-02T15:04:05"`) does not mention one. -/
def readFracNanos : List Char → Option (Nat × List Char)
  | [] => some (0, [])
  | c :: l =>
    if c = '.' then
      match readFracDigits l 0 0 with
      | some (n, k, rest) => if 1 ≤ k ∧ k ≤ 9 then some (n * 10 ^ (9 - k), rest) else none
      | none => none
    else some (0, c :: l)
where
  readFracDigits : List Char → Nat → Nat → Option (Nat × Nat × List Char)
    | [], acc, k => some (acc, k, [])
    | c :: l, acc, k =>
      if c.isDigit then readFracDigits l (acc * 10 + (c.toNat - 48)) (k + 1)
      else some (acc, k, c :: l)

/-- Go `time.ParseInLocation("2006-01-02T15:04:05", s, loc)` (main.go line
655) for a zone of fixed offset `off`: four-digit year, two-digit month,
day, hour, minute and second with the literal separators, an optional
fractional second, and nothing after; out-of-range components are
rejected as in Go. -/
def parseInLocationMorgen (s : String) (off : Int) : Option GoTime :=
  match readFixedNat 4 0 s.data with
  | none => none
  | some (y, l) =>
  match expectChar '-' l with
  | none => none
  | some l =>
  match readFixedNat 2 0 l with
  | none => none
  | some (mo, l) =>
  match expectChar '-' l with
  | none => none
  | some l =>
  match readFixedNat 2 0 l with
  | none => none
  | some (d, l) =>
  match expectChar 'T' l with
  | none => none
  | some l =>
  match readFixedNat 2 0 l with
  | none => none
  | some (h, l) =>
  match expectChar ':' l with
  | none => none
  | some l =>
  match readFixedNat 2 0 l with
  | none => none
  | some (mi, l) =>
  match expectChar ':' l with
  | none => none
  | some l =>
  match readFixedNat 2 0 l with
  | none => none
  | some (sec, l) =>
  match readFracNanos l with
  | none => none
  | some (ns, l) =>
    if l = [] ∧ 1 ≤ mo ∧ mo ≤ 12 ∧ 1 ≤ d ∧ d ≤ daysInMonth (y : Int) mo
        ∧ h ≤ 23 ∧ mi ≤ 59 ∧ sec ≤ 59 then
      some { year := (y : Int), month := mo, day := d, hour := h, minute := mi,
             sec := sec, nsec := ns, offsetSec := off }
    else none

/-! ### ISO-8601 durations (vendored `iso8601duration` dependency)

The dependency `github.com/channelmeter/iso8601duration` is not part of
this repository; it is embedded from its documented behavior: `FromString`
matches either the anchored week pattern `P<n>W` or the anchored pattern
`P(<n>Y)?(<n>M)?(<n>D)?(T(<n>H)?(<n>M)?(<n>S)?)?` (a month component is
rejected), integer components only, and any other input is a parse error;
`ToDuration` converts with a 365-day year and 7-day week. -/

structure IsoDuration where
  years : Nat
  weeks : Nat
  days : Nat
  hours : Nat
  minutes : Nat
  seconds : Nat
  deriving DecidableEq, Repr

/-- Reads one or more digits. -/
def readNat1 (l : List Char) : Option (Nat × List Char) :=
  match l with
  | c :: _ =>
    if c.isDigit then go l 0 else none
  | [] => none
where
  go : List Char → Nat → Nat × List Char
    | [], acc => (acc, [])
    | c :: l, acc =>
      if c.isDigit then go l (acc * 10 + (c.toNat - 48)) else (acc, c :: l)

/-- Reads a number followed by the given unit letter, if present. -/
def stepUnit (l : List Char) (u : Char) : Option (Nat × List Char) :=
  match readNat1 l with
  | some (n, c :: r) => if c = u then some (n, r) else none
  | _ => none

/-- Non-consuming variant: the unit's value, defaulting to zero when the
optional group is absent. -/
def optUnit (l : List Char) (u : Char) : Nat × List Char :=
  match stepUnit l u with
  | some (n, r) => (n, r)
  | none => (0, l)

/-- The full (non-week) duration pattern, after the leading `P`. -/
def parseIsoFullAfterP (l : List Char) : Option IsoDuration :=
  let (y, l) := optUnit l 'Y'
  if (stepUnit l 'M').isSome then none
  else
    let (dd, l) := optUnit l 'D'
    match l with
    | [] => some ⟨y, 0, dd, 0, 0, 0⟩
    | 'T' :: l =>
      let (h, l) := optUnit l 'H'
      let (mi, l) := optUnit l 'M'
      let (s, l) := optUnit l 'S'
      if l = [] then some ⟨y, 0, dd, h, mi, s⟩ else none
    | _ => none

/-- The week pattern, after the leading `P`. -/
def parseIsoWeekAfterP (l : List Char) : Option Nat :=
  match stepUnit l 'W' with
  | some (n, []) => some n
  | _ => none

/-- Go `duration.FromString` of the vendored dependency: `none` models the
non-nil error (with `dur` nil). -/
def iso8601FromString (s : String) : Option IsoDuration :=
  match s.data with
  | 'P' :: l =>
    match parseIsoWeekAfterP l with
    | some w => some ⟨0, w, 0, 0, 0, 0⟩
    | none => parseIsoFullAfterP l
  | _ => none

/-- Go `dur.ToDuration()` in nanoseconds. -/
def isoToDuration (d : IsoDuration) : Int :=
  ((d.years * 365 * 86400 + d.weeks * 7 * 86400 + d.days * 86400
      + d.hours * 3600 + d.minutes * 60 + d.seconds : Nat) : Int) * nanosPerSec

/-- The event-conversion loop of `GetTodaysEvents` (main.go lines 646-682).
Per raw event: resolve the zone name through `tzdb` (the external IANA
database, fixed-offset model) — on failure log and skip; parse the start
time in that zone — on failure log and skip; parse the ISO-8601 duration —
on failure the code logs, computes the end time, and then hits a leftover
second `if err != nil` block (whose log message still talks about an end
time this version never parses) that skips the event; in Go `dur` is in
fact nil on that path, so the intervening `dur.ToDuration()` call would
dereference nil.  On success the event is kept with
`endTime = startTime.Add(dur.ToDuration())` and both times converted to
the process-local zone `localOff`. -/
def convertMorgenEvents (tzdb : String → Option Int) (localOff : Int) :
    List MorgenEvent → List CalendarEvent
  | [] => []
  | me :: rest =>
    match tzdb me.timeZone with
    | none => convertMorgenEvents tzdb localOff rest
    | some off =>
      match parseInLocationMorgen me.startTime off with
      | none => convertMorgenEvents tzdb localOff rest
      | some startTime =>
        match iso8601FromString me.duration with
        | none => convertMorgenEvents tzdb localOff rest
        | some dur =>
          let endTime := goAdd startTime (isoToDuration dur)
          { id := me.id
            title := me.title
            startTime := goIn localOff startTime
            endTime := goIn localOff endTime
            description := me.description
            location := me.location
            attendees := [] } :: convertMorgenEvents tzdb localOff rest

/-- Modelled from the spec: the date-taking `GetTodaysEvents` body is not
under src — src holds the `CalendarProvider` interface
`GetTodaysEvents(date time.Time)` and the caller `runAgenda` passing the
requested date, while the Morgen implementation snapshot in src predates
the parameter and computes the window from `time.Now()` (main.go lines
591-594).  Per spec §4.2 step 4 the window is the requested date's full
24-hour window, so the body is embedded with `date` in place of `now`:
`startOfDay = time.Date(date.Year(), date.Month(), date.Day(), 0,0,0,0,
date.Location())`, `endOfDay = startOfDay.Add(24 * time.Hour)`; all other
steps (API-key check, calendar listing, filtering/grouping, per-account
fetch, conversion) are embedded from the src body. -/
def GetTodaysEvents (cfg : ProviderConfig) (apiKey : String)
    (calNet : Request → CalendarsResponse) (evNet : Request → EventsResponse)
    (tzdb : String → Option Int) (localOff : Int) (date : GoTime) :
    Except GoErr (List CalendarEvent) :=
  if apiKey = "" then .error (.missingApiKey cfg.envAPIKey)
  else
    match getCalendars cfg apiKey calNet with
    | .error e => .error e
    | .ok calendars =>
      let groups := accountCalendarMap calendars cfg.calendarsToIgnore
      let startOfDayT := startOfDay date
      let endOfDayT := goAdd startOfDayT (24 * 3600 * nanosPerSec)
      match fetchEventsLoop cfg apiKey startOfDayT endOfDayT evNet groups [] with
      | .error e => .error e
      | .ok morgenEvents => .ok (convertMorgenEvents tzdb localOff morgenEvents)

/-! ## Event formatter (`NewEventFormatter` / `FormatEvent`, main.go lines 26-63) -/

def pow10 : Nat → Nat
  | 0 => 1
  | n + 1 => 10 * pow10 n

/-- Drops trailing zero characters. -/
def stripTrailingZeros (l : List Char) : List Char :=
  (l.reverse.dropWhile (· = '0')).reverse

/-- Left-pads a numeral with zeros to `n` characters. -/
def padLeftZeros (s : String) (n : Nat) : String :=
  ⟨List.replicate (n - s.length) '0' ++ s.data⟩

/-- Go `time.Duration.String`'s fraction printer: the last `prec` decimal
digits of `v` as a fraction with trailing zeros removed, empty when the
fraction is zero. -/
def fmtFrac (v prec : Nat) : String :=
  let frac := v % pow10 prec
  if frac = 0 then ""
  else "." ++ ⟨stripTrailingZeros (padLeftZeros (toString frac) prec).data⟩

/-- Go `time.Duration.String` (used for the template's `Duration` field,
main.go line 55): `"0s"` for zero; `ns`/`µs`/`ms` with fraction below one
second; otherwise seconds with fraction, with minutes and hours prepended
when nonzero; a leading minus for negative durations. -/
def goDurationString (d : Int) : String :=
  let u := d.natAbs
  let core :=
    if u < 1000000000 then
      if u = 0 then "0s"
      else if u < 1000 then toString u ++ "ns"
      else if u < 1000000 then toString (u / 1000) ++ fmtFrac u 3 ++ "µs"
      else toString (u / 1000000) ++ fmtFrac u 6 ++ "ms"
    else
      let secs := u / 1000000000
      let mins := secs / 60
      let hrs := mins / 60
      (if 0 < mins then
        (if 0 < hrs then toString hrs ++ "h" else "") ++ toString (mins % 60) ++ "m"
       else "")
        ++ toString (secs % 60) ++ fmtFrac u 9 ++ "s"
  if d < 0 then "-" ++ core else core

/-- The data fields the formatter exposes to the template (main.go lines
46-56): the embedded `CalendarEvent`'s display fields plus the three
derived fields.  These are the template fields the tool documents; a
template referencing anything else is outside the embedding and fails to
parse (`parseEventTemplate`). -/
inductive TemplateField where
  | id
  | title
  | description
  | location
  | startTimeFormatted
  | endTimeFormatted
  | durationField
  deriving DecidableEq, Repr

/-- A parsed `text/template` over the supported subset: literal text,
plain field actions, and conditionals
`\x7b\x7bif .Field\x7d\x7d...\x7b\x7belse\x7d\x7d...\x7b\x7bend\x7d\x7d`
(the form the repository README's example templates use; the else branch
may be absent).  Pipelines, `range`, `with`, variables and trim markers
remain outside the subset and fail to parse. -/
inductive TemplateNode where
  | text (s : String)
  | field (f : TemplateField)
  | cond (f : TemplateField) (thenNodes elseNodes : List TemplateNode)

def fieldOfName (s : String) : Option TemplateField :=
  if s = "ID" then some .id
  else if s = "Title" then some .title
  else if s = "Description" then some .description
  else if s = "Location" then some .location
  else if s = "StartTimeFormatted" then some .startTimeFormatted
  else if s = "EndTimeFormatted" then some .endTimeFormatted
  else if s = "Duration" then some .durationField
  else none

def lbrace : Char := Char.ofNat 123
def rbrace : Char := Char.ofNat 125

/-- Scans literal text up to the next action opener; returns the text and,
when an opener was found, the remainder after it. -/
def scanText : List Char → List Char × Option (List Char)
  | [] => ([], none)
  | [c] => ([c], none)
  | c :: c2 :: rest =>
    if c = lbrace ∧ c2 = lbrace then ([], some rest)
    else
      let (t, r) := scanText (c2 :: rest)
      (c :: t, r)

/-- Scans an action's content up to its closer; `none` when the closer is
missing. -/
def scanAction : List Char → Option (List Char × List Char)
  | [] => none
  | [_] => none
  | c :: c2 :: rest =>
    if c = rbrace ∧ c2 = rbrace then some ([], rest)
    else
      match scanAction (c2 :: rest) with
      | some (a, r) => some (c :: a, r)
      | none => none

/-- How a node sequence ended: end of input, an `end` action, or an
`else` action. -/
inductive TmplTerm where
  | eof
  | endTok
  | elseTok
  deriving DecidableEq, Repr

/-- Recursive template scanner (fuel-based; `fuel = length + 1` always
suffices since every recursive call follows the consumption of an action's
four brace characters).  Parses a node sequence up to end of input or an
`end`/`else` terminator action, which is returned to the enclosing
conditional. -/
def parseNodes : Nat → List Char → Option (List TemplateNode × TmplTerm × List Char)
  | 0, _ => none
  | fuel + 1, l =>
    match scanText l with
    | (txt, none) => some (if txt = [] then [] else [.text ⟨txt⟩], .eof, [])
    | (txt, some rest) =>
      match scanAction rest with
      | none => none
      | some (act, rest') =>
        if act = ['e', 'n', 'd'] then
          some (if txt = [] then [] else [.text ⟨txt⟩], .endTok, rest')
        else if act = ['e', 'l', 's', 'e'] then
          some (if txt = [] then [] else [.text ⟨txt⟩], .elseTok, rest')
        else
          match act with
          | '.' :: nameChars =>
            match fieldOfName ⟨nameChars⟩ with
            | none => none
            | some f =>
              match parseNodes fuel rest' with
              | none => none
              | some (nodes, t, r) =>
                some ((if txt = [] then [] else [.text ⟨txt⟩]) ++ .field f :: nodes, t, r)
          | 'i' :: 'f' :: ' ' :: '.' :: nameChars =>
            match fieldOfName ⟨nameChars⟩ with
            | none => none
            | some f =>
              match parseNodes fuel rest' with
              | none => none
              | some (_, .eof, _) => none
              | some (thenNodes, .endTok, r) =>
                match parseNodes fuel r with
                | none => none
                | some (nodes, t, r2) =>
                  some ((if txt = [] then [] else [.text ⟨txt⟩])
                    ++ .cond f thenNodes [] :: nodes, t, r2)
              | some (thenNodes, .elseTok, r) =>
                match parseNodes fuel r with
                | none => none
                | some (elseNodes, .endTok, r2) =>
                  match parseNodes fuel r2 with
                  | none => none
                  | some (nodes, t, r3) =>
                    some ((if txt = [] then [] else [.text ⟨txt⟩])
                      ++ .cond f thenNodes elseNodes :: nodes, t, r3)
                | some (_, _, _) => none
          | _ => none

/-- Models `template.New("event").Parse(eventTemplateStr)` over the
supported subset: literal text, `.Field` actions drawn from the documented
template fields, and `if .Field` conditionals with optional `else`.  A
stray `end`/`else` or an unclosed `if` is a parse error, as in Go. -/
def parseEventTemplate (s : String) : Option (List TemplateNode) :=
  match parseNodes (s.length + 1) s.data with
  | some (nodes, .eof, _) => some nodes
  | _ => none

/-- Structure `EventFormatter` (main.go lines 27-30). -/
structure EventFormatter where
  timeFormat : String
  eventTemplate : List TemplateNode

/-- Function `NewEventFormatter` (main.go lines 33-42): parse the template
string; `none` models the returned parse error. -/
def NewEventFormatter (timeFormat eventTemplateStr : String) : Option EventFormatter :=
  match parseEventTemplate eventTemplateStr with
  | none => none
  | some tmpl => some { timeFormat := timeFormat, eventTemplate := tmpl }

/-- The value a field action renders, over the data struct built by
`FormatEvent` (main.go lines 46-56). -/
def renderField (timeFormat : String) (event : CalendarEvent) : TemplateField → String
  | .id => event.id
  | .title => event.title
  | .description => event.description
  | .location => event.location
  | .startTimeFormatted => goFormat event.startTime timeFormat
  | .endTimeFormatted => goFormat event.endTime timeFormat
  | .durationField => goDurationString (goSub event.endTime event.startTime)

/-- Template execution into the `strings.Builder` (main.go lines 58-61).
A conditional takes its then-branch exactly when the field's value is
truthy — for the string-valued fields the data struct exposes, truthy
means non-empty, as in Go's `text/template`. -/
def execTemplate (timeFormat : String) (event : CalendarEvent) :
    List TemplateNode → String
  | [] => ""
  | .text s :: rest => s ++ execTemplate timeFormat event rest
  | .field f :: rest => renderField timeFormat event f ++ execTemplate timeFormat event rest
  | .cond f thenNodes elseNodes :: rest =>
    (if renderField timeFormat event f ≠ "" then execTemplate timeFormat event thenNodes
     else execTemplate timeFormat event elseNodes)
      ++ execTemplate timeFormat event rest

/-- Function `FormatEvent` (main.go lines 45-63): execute the parsed
template on the event plus derived fields.  Over the supported template
subset every field is defined, so execution (Go's `Execute` error path)
cannot fail. -/
def FormatEvent (f : EventFormatter) (event : CalendarEvent) : String :=
  execTemplate f.timeFormat event f.eventTemplate

/-! ## Theorems: post-processing (claims C5, C6) -/

/-- The `uniqueEvents` loop is, content-wise, the first-occurrence filter
over the deduplication key, for any starting accumulator. -/
theorem uniqueEventsMap_eq_keepFirst (l : List CalendarEvent) :
    ∀ m, (uniqueEventsMap l m).map Prod.snd
      = m.map Prod.snd ++ keepFirstByKeyAux l m := by
  induction l with
  | nil => intro m; simp [uniqueEventsMap, keepFirstByKeyAux]
  | cons e rest ih =>
    intro m
    by_cases h : (m.lookup (eventKey e)).isSome
    · simp [uniqueEventsMap, keepFirstByKeyAux, h, ih]
    · simp [uniqueEventsMap, keepFirstByKeyAux, h, ih (m ++ [(eventKey e, e)])]

/-- C5 (amended).  Deduplication keeps exactly the first occurrence of each
deduplication key and drops every later event with the same key — where
the key is `title ++ "-" ++ startTime.Format(RFC3339)`, i.e. the start
time enters the comparison at whole-second precision (with its rendered
zone offset), not at full precision. -/
theorem c5_dedup_first_occurrence_by_key (events : List CalendarEvent) :
    (uniqueEvents events).map Prod.snd = keepFirstByKey events := by
  simpa using uniqueEventsMap_eq_keepFirst events []

/-- C5 counterexample.  Two events with the same title whose start times
differ (only) in the sub-second field — reachable from a fetch, since the
start-time parser accepts fractional seconds — are not an identical
`(title, startTime)` pair, yet deduplication keeps only the first: the
RFC3339-rendered key forgets sub-second precision, refuting "startTime
compared at full precision". -/
theorem c5_counterexample_subsecond_precision :
    (CalendarEvent.mk "1" "Standup" ⟨2024, 1, 2, 9, 0, 0, 0, 0⟩
        ⟨2024, 1, 2, 10, 0, 0, 0, 0⟩ "room A" "" []).startTime
      ≠ (CalendarEvent.mk "2" "Standup" ⟨2024, 1, 2, 9, 0, 0, 500000000, 0⟩
        ⟨2024, 1, 2, 10, 0, 0, 0, 0⟩ "room B" "" []).startTime
    ∧ (uniqueEvents
        [CalendarEvent.mk "1" "Standup" ⟨2024, 1, 2, 9, 0, 0, 0, 0⟩
          ⟨2024, 1, 2, 10, 0, 0, 0, 0⟩ "room A" "" [],
         CalendarEvent.mk "2" "Standup" ⟨2024, 1, 2, 9, 0, 0, 500000000, 0⟩
          ⟨2024, 1, 2, 10, 0, 0, 0, 0⟩ "room B" "" []]).map Prod.snd
      = [CalendarEvent.mk "1" "Standup" ⟨2024, 1, 2, 9, 0, 0, 0, 0⟩
          ⟨2024, 1, 2, 10, 0, 0, 0, 0⟩ "room A" "" []]
    ∧ parseInLocationMorgen "2024-01-02T09:00:00.5" 0
      = some ⟨2024, 1, 2, 9, 0, 0, 500000000, 0⟩ := by
  refine ⟨by decide, by decide, by decide⟩

/-- C6 (amended).  After post-processing the events are in ascending order
under the source's comparator (adjacent pairs never require a swap:
`startTime[i] <= startTime[i+1]` compared in local time), and the output
is a permutation of the deduplicated events — but the relative order of
equal start times is *not* the deduplication order: it depends on the
unspecified Go map iteration order `iter` (and the sort is the unstable
`sort.Slice`). -/
theorem c6_sorted_ascending_by_start_time (localOff : Int)
    (events : List CalendarEvent) (iter : List (String × CalendarEvent))
    (hperm : iter.Perm (uniqueEvents events)) :
    List.Chain' (sortLe localOff) (postProcess localOff iter)
    ∧ (postProcess localOff iter).Perm ((uniqueEvents events).map Prod.snd) := by
  constructor
  · exact List.Pairwise.chain' (List.sorted_insertionSort _ _)
  · exact (List.perm_insertionSort _ _).trans (hperm.map Prod.snd)

/-- Witness for C6 at a concrete input (the map contents in reverse
iteration order). -/
theorem c6_sorted_ascending_by_start_time_witness :
    List.Chain' (sortLe 0)
      (postProcess 0
        (uniqueEvents
          [CalendarEvent.mk "1" "B" ⟨2024, 1, 2, 10, 0, 0, 0, 0⟩
            ⟨2024, 1, 2, 11, 0, 0, 0, 0⟩ "" "" [],
           CalendarEvent.mk "2" "A" ⟨2024, 1, 2, 9, 0, 0, 0, 0⟩
            ⟨2024, 1, 2, 10, 0, 0, 0, 0⟩ "" "" []]).reverse)
    ∧ (postProcess 0
        (uniqueEvents
          [CalendarEvent.mk "1" "B" ⟨2024, 1, 2, 10, 0, 0, 0, 0⟩
            ⟨2024, 1, 2, 11, 0, 0, 0, 0⟩ "" "" [],
           CalendarEvent.mk "2" "A" ⟨2024, 1, 2, 9, 0, 0, 0, 0⟩
            ⟨2024, 1, 2, 10, 0, 0, 0, 0⟩ "" "" []]).reverse).Perm
        ((uniqueEvents
          [CalendarEvent.mk "1" "B" ⟨2024, 1, 2, 10, 0, 0, 0, 0⟩
            ⟨2024, 1, 2, 11, 0, 0, 0, 0⟩ "" "" [],
           CalendarEvent.mk "2" "A" ⟨2024, 1, 2, 9, 0, 0, 0, 0⟩
            ⟨2024, 1, 2, 10, 0, 0, 0, 0⟩ "" "" []]).map Prod.snd) :=
  c6_sorted_ascending_by_start_time 0 _ _ (List.reverse_perm _)

/-- C6 counterexample.  Two distinct events with equal start times: the
deduplicated contents are `[eA, eB]`, the reversed list is a legitimate
map iteration order, and post-processing it yields `[eB, eA]` — the tie
did not retain the order produced by deduplication, refuting the
stability part of the claim. -/
theorem c6_counterexample_ties_not_stable :
    ((uniqueEvents
        [CalendarEvent.mk "1" "A" ⟨2024, 1, 2, 9, 0, 0, 0, 0⟩
          ⟨2024, 1, 2, 10, 0, 0, 0, 0⟩ "" "" [],
         CalendarEvent.mk "2" "B" ⟨2024, 1, 2, 9, 0, 0, 0, 0⟩
          ⟨2024, 1, 2, 10, 0, 0, 0, 0⟩ "" "" []]).map Prod.snd
      = [CalendarEvent.mk "1" "A" ⟨2024, 1, 2, 9, 0, 0, 0, 0⟩
          ⟨2024, 1, 2, 10, 0, 0, 0, 0⟩ "" "" [],
         CalendarEvent.mk "2" "B" ⟨2024, 1, 2, 9, 0, 0, 0, 0⟩
          ⟨2024, 1, 2, 10, 0, 0, 0, 0⟩ "" "" []])
    ∧ ((uniqueEvents
        [CalendarEvent.mk "1" "A" ⟨2024, 1, 2, 9, 0, 0, 0, 0⟩
          ⟨2024, 1, 2, 10, 0, 0, 0, 0⟩ "" "" [],
         CalendarEvent.mk "2" "B" ⟨2024, 1, 2, 9, 0, 0, 0, 0⟩
          ⟨2024, 1, 2, 10, 0, 0, 0, 0⟩ "" "" []]).reverse).Perm
      (uniqueEvents
        [CalendarEvent.mk "1" "A" ⟨2024, 1, 2, 9, 0, 0, 0, 0⟩
          ⟨2024, 1, 2, 10, 0, 0, 0, 0⟩ "" "" [],
         CalendarEvent.mk "2" "B" ⟨2024, 1, 2, 9, 0, 0, 0, 0⟩
          ⟨2024, 1, 2, 10, 0, 0, 0, 0⟩ "" "" []])
    ∧ postProcess 0
        ((uniqueEvents
          [CalendarEvent.mk "1" "A" ⟨2024, 1, 2, 9, 0, 0, 0, 0⟩
            ⟨2024, 1, 2, 10, 0, 0, 0, 0⟩ "" "" [],
           CalendarEvent.mk "2" "B" ⟨2024, 1, 2, 9, 0, 0, 0, 0⟩
            ⟨2024, 1, 2, 10, 0, 0, 0, 0⟩ "" "" []]).reverse)
      = [CalendarEvent.mk "2" "B" ⟨2024, 1, 2, 9, 0, 0, 0, 0⟩
          ⟨2024, 1, 2, 10, 0, 0, 0, 0⟩ "" "" [],
         CalendarEvent.mk "1" "A" ⟨2024, 1, 2, 9, 0, 0, 0, 0⟩
          ⟨2024, 1, 2, 10, 0, 0, 0, 0⟩ "" "" []]
    ∧ (CalendarEvent.mk "1" "A" ⟨2024, 1, 2, 9, 0, 0, 0, 0⟩
          ⟨2024, 1, 2, 10, 0, 0, 0, 0⟩ "" "" []).startTime
      = (CalendarEvent.mk "2" "B" ⟨2024, 1, 2, 9, 0, 0, 0, 0⟩
          ⟨2024, 1, 2, 10, 0, 0, 0, 0⟩ "" "" []).startTime := by
  refine ⟨by decide, ?_, by decide, by decide⟩
  exact List.reverse_perm _

/-! ## Theorems: provider requests and fetch (claims C2, C4, C8) -/

/-- The header-adding loop never touches a request's query parameters. -/
theorem addConfigHeaders_query (hs : List (String × String)) :
    ∀ (r : Request) (apiKey : String), (addConfigHeaders r hs apiKey).query = r.query := by
  induction hs with
  | nil => intro r apiKey; rfl
  | cons kv rest ih =>
    intro r apiKey
    simpa [addConfigHeaders] using ih _ apiKey

/-- The query mapping of one per-account events request, explicitly. -/
theorem eventsRequestFor_query (cfg : ProviderConfig) (apiKey : String)
    (sD eD : GoTime) (aid : String) (cids : List String) :
    (eventsRequestFor cfg apiKey sD eD aid cids).query =
      [("start", formatRFC3339 sD), ("end", formatRFC3339 eD),
       ("accountId", aid), ("calendarIds", strJoinComma cids)] := by
  unfold eventsRequestFor
  rw [addConfigHeaders_query]
  rfl

/-- C2.  Every per-account events-list request that `GetTodaysEvents`
issues for the requested date — one per account group — carries the
requested date's full 24-hour window: `start` is the RFC3339 rendering of
the date's local midnight (`startOfDay`) and `end` of local midnight plus
24 hours, together with the group's account identifier and comma-joined
calendar-id list. -/
theorem c2_events_requests_scoped_to_date_window (cfg : ProviderConfig)
    (apiKey : String) (date : GoTime) (calendars : List MorgenCalendar)
    (g : String × List String)
    (hg : g ∈ accountCalendarMap calendars cfg.calendarsToIgnore) :
    ((eventsRequestFor cfg apiKey (startOfDay date)
        (goAdd (startOfDay date) (24 * 3600 * nanosPerSec)) g.1 g.2).query.lookup "start"
      = some (formatRFC3339 (startOfDay date)))
    ∧ ((eventsRequestFor cfg apiKey (startOfDay date)
        (goAdd (startOfDay date) (24 * 3600 * nanosPerSec)) g.1 g.2).query.lookup "end"
      = some (formatRFC3339 (goAdd (startOfDay date) (24 * 3600 * nanosPerSec))))
    ∧ ((eventsRequestFor cfg apiKey (startOfDay date)
        (goAdd (startOfDay date) (24 * 3600 * nanosPerSec)) g.1 g.2).query.lookup "accountId"
      = some g.1)
    ∧ ((eventsRequestFor cfg apiKey (startOfDay date)
        (goAdd (startOfDay date) (24 * 3600 * nanosPerSec)) g.1 g.2).query.lookup "calendarIds"
      = some (strJoinComma g.2)) := by
  rw [eventsRequestFor_query]
  exact ⟨rfl, rfl, rfl, rfl⟩

/-- Witness for C2 at a concrete input: one readable calendar producing one
account group. -/
theorem c2_events_requests_scoped_to_date_window_witness :
    ((eventsRequestFor
        { baseURL := "https://api.morgen.so/v3", headers := [],
          envAPIKey := "MORGEN_API_KEY", calendarsToIgnore := [] }
        "sk" (startOfDay ⟨2024, 1, 2, 13, 45, 0, 0, 3600⟩)
        (goAdd (startOfDay ⟨2024, 1, 2, 13, 45, 0, 0, 3600⟩) (24 * 3600 * nanosPerSec))
        "acct1" ["cal1"]).query.lookup "start"
      = some (formatRFC3339 (startOfDay ⟨2024, 1, 2, 13, 45, 0, 0, 3600⟩))) :=
  (c2_events_requests_scoped_to_date_window
    { baseURL := "https://api.morgen.so/v3", headers := [],
      envAPIKey := "MORGEN_API_KEY", calendarsToIgnore := [] }
    "sk" ⟨2024, 1, 2, 13, 45, 0, 0, 3600⟩
    [MorgenCalendar.mk "Work" "acct1" ⟨true⟩ "cal1" "blue"]
    ("acct1", ["cal1"]) (by decide)).1

/-- C4.  If any per-account events request returns a non-success HTTP
status (`pre` being the groups handled before it, all with successful,
decodable responses), the whole fetch loop aborts with an error carrying
that response's status and body; events already gathered from earlier
accounts (in `acc`) are discarded and no events are returned. -/
theorem c4_nonsuccess_status_aborts_fetch (cfg : ProviderConfig)
    (apiKey : String) (sD eD : GoTime) (net : Request → EventsResponse)
    (pre post : List (String × List String)) (bad : String × List String)
    (acc : List MorgenEvent)
    (hpre : ∀ g ∈ pre,
        (net (eventsRequestFor cfg apiKey sD eD g.1 g.2)).status = 200
        ∧ (net (eventsRequestFor cfg apiKey sD eD g.1 g.2)).decoded ≠ none)
    (hbad : (net (eventsRequestFor cfg apiKey sD eD bad.1 bad.2)).status ≠ 200) :
    fetchEventsLoop cfg apiKey sD eD net (pre ++ bad :: post) acc
      = .error (.requestFailed
          (net (eventsRequestFor cfg apiKey sD eD bad.1 bad.2)).status
          (net (eventsRequestFor cfg apiKey sD eD bad.1 bad.2)).body) := by
  induction pre generalizing acc with
  | nil =>
    obtain ⟨ba, bc⟩ := bad
    simp only [List.nil_append, fetchEventsLoop]
    rw [if_pos hbad]
  | cons g rest ih =>
    obtain ⟨hst, hdec⟩ := hpre g (List.mem_cons_self g rest)
    obtain ⟨ga, gc⟩ := g
    simp only [List.cons_append, fetchEventsLoop]
    rw [if_neg (by simp [hst])]
    obtain ⟨evs, hevs⟩ := Option.ne_none_iff_exists'.mp hdec
    rw [hevs]
    exact ih (acc ++ evs) (fun g hg => hpre g (List.mem_cons_of_mem _ hg))

/-- Witness for C4 at a concrete input: two account groups, the second
answering HTTP 500 with body `"boom"`, the first succeeding — the fetch
reports the 500 with its body and yields no events. -/
theorem c4_nonsuccess_status_aborts_fetch_witness :
    fetchEventsLoop
      { baseURL := "https://api.morgen.so/v3", headers := [],
        envAPIKey := "MORGEN_API_KEY", calendarsToIgnore := [] }
      "sk" ⟨2024, 1, 2, 0, 0, 0, 0, 0⟩ ⟨2024, 1, 3, 0, 0, 0, 0, 0⟩
      (fun r => if r.query.lookup "accountId" = some "acct2"
        then ⟨500, "boom", none⟩
        else ⟨200, "ok", some [MorgenEvent.mk "e" "t" "2024-01-02T09:00:00" "PT1H" "UTC" "" "" ""]⟩)
      [("acct1", ["cal1"]), ("acct2", ["cal2"])] []
      = .error (.requestFailed 500 "boom") := by
  have h := c4_nonsuccess_status_aborts_fetch
    { baseURL := "https://api.morgen.so/v3", headers := [],
      envAPIKey := "MORGEN_API_KEY", calendarsToIgnore := [] }
    "sk" ⟨2024, 1, 2, 0, 0, 0, 0, 0⟩ ⟨2024, 1, 3, 0, 0, 0, 0, 0⟩
    (fun r => if r.query.lookup "accountId" = some "acct2"
      then ⟨500, "boom", none⟩
      else ⟨200, "ok", some [MorgenEvent.mk "e" "t" "2024-01-02T09:00:00" "PT1H" "UTC" "" "" ""]⟩)
    [("acct1", ["cal1"])] [] ("acct2", ["cal2"]) []
    (by decide) (by decide)
  simpa using h

/-- The transformation the header loop applies to one configured header:
the API key replaces the first placeholder occurrence only in the header
literally named `Authorization`; any other header's value passes through
verbatim. -/
def substAuthHeader (apiKey : String) (kv : String × String) : String × String :=
  (kv.1, if kv.1 = "Authorization"
    then strReplaceFirst kv.2 "\x7bAPI_KEY\x7d" apiKey
    else kv.2)

/-- Setting a key absent from an association list appends it. -/
theorem assocSet_of_forall_ne (k v : String) :
    ∀ (m : List (String × String)), (∀ p ∈ m, p.1 ≠ k) →
      assocSet m k v = m ++ [(k, v)] := by
  intro m
  induction m with
  | nil => intro _; rfl
  | cons p rest ih =>
    intro h
    have hp : p.1 ≠ k := h p (List.mem_cons_self p rest)
    simp only [assocSet, if_neg hp]
    rw [ih (fun q hq => h q (List.mem_cons_of_mem _ hq))]
    rfl

/-- With the unique header keys a Go map guarantees, the header loop
produces exactly the per-header transformation `substAuthHeader`. -/
theorem addConfigHeaders_headers (hs : List (String × String)) :
    ∀ (r : Request) (apiKey : String), (hs.map Prod.fst).Nodup →
      (∀ p ∈ r.headers, p.1 ∉ hs.map Prod.fst) →
      (addConfigHeaders r hs apiKey).headers
        = r.headers ++ hs.map (substAuthHeader apiKey) := by
  induction hs with
  | nil => intro r apiKey _ _; simp [addConfigHeaders]
  | cons kv rest ih =>
    intro r apiKey hnodup hdisj
    have hset : assocSet r.headers kv.1
        (if kv.1 = "Authorization" then strReplaceFirst kv.2 "\x7bAPI_KEY\x7d" apiKey
         else kv.2)
        = r.headers ++ [substAuthHeader apiKey kv] := by
      apply assocSet_of_forall_ne
      intro p hp
      have := hdisj p hp
      simp only [List.map_cons, List.mem_cons] at this
      exact fun hpk => this (Or.inl hpk)
    have hfold : addConfigHeaders r (kv :: rest) apiKey
        = addConfigHeaders (Request.mk r.method r.url r.query
            (r.headers ++ [substAuthHeader apiKey kv])) rest apiKey := by
      simp only [addConfigHeaders, List.foldl_cons]
      congr 1
      rw [show (Request.mk r.method r.url r.query
            (r.headers ++ [substAuthHeader apiKey kv]))
          = Request.mk r.method r.url r.query (assocSet r.headers kv.1
              (if kv.1 = "Authorization" then strReplaceFirst kv.2 "\x7bAPI_KEY\x7d" apiKey
               else kv.2)) from by rw [hset]]
    have hnodup' : (rest.map Prod.fst).Nodup := by
      simp only [List.map_cons, List.nodup_cons] at hnodup
      exact hnodup.2
    have hdisj' : ∀ p ∈ r.headers ++ [substAuthHeader apiKey kv],
        p.1 ∉ rest.map Prod.fst := by
      intro p hp
      rcases List.mem_append.mp hp with h1 | h2
      · have := hdisj p h1
        simp only [List.map_cons, List.mem_cons] at this
        exact fun hmem => this (Or.inr hmem)
      · have hpk : p = substAuthHeader apiKey kv := by simpa using h2
        subst hpk
        show kv.1 ∉ rest.map Prod.fst
        simp only [List.map_cons, List.nodup_cons] at hnodup
        exact hnodup.1
    rw [hfold, ih (Request.mk r.method r.url r.query
        (r.headers ++ [substAuthHeader apiKey kv])) apiKey hnodup' hdisj']
    simp

/-- C8 (amended).  On both outgoing requests — the calendars-list request
and each per-account events-list request — the resolved API key is
substituted *only* into the value of the header literally named
`Authorization` (and only its first placeholder occurrence); every other
configured header value is sent verbatim, even when it contains the
placeholder token. -/
theorem c8_amended_substitution_only_in_authorization (cfg : ProviderConfig)
    (apiKey : String) (sD eD : GoTime) (aid : String) (cids : List String)
    (hnodup : (cfg.headers.map Prod.fst).Nodup) :
    (calendarsRequest cfg apiKey).headers = cfg.headers.map (substAuthHeader apiKey)
    ∧ (eventsRequestFor cfg apiKey sD eD aid cids).headers
      = cfg.headers.map (substAuthHeader apiKey) := by
  constructor
  · have h := addConfigHeaders_headers cfg.headers
      (Request.mk "GET" (cfg.baseURL ++ "/calendars/list") [] []) apiKey hnodup
      (by intro p hp; simp at hp)
    simpa [calendarsRequest] using h
  · have h := addConfigHeaders_headers cfg.headers
      (Request.mk "GET" (cfg.baseURL ++ "/events/list")
        (assocSet (assocSet (assocSet (assocSet [] "start" (formatRFC3339 sD))
          "end" (formatRFC3339 eD)) "accountId" aid)
          "calendarIds" (strJoinComma cids)) []) apiKey hnodup
      (by intro p hp; simp at hp)
    simpa [eventsRequestFor] using h

/-- Witness for C8 at a concrete input: the default Morgen headers. -/
theorem c8_amended_substitution_only_in_authorization_witness :
    (calendarsRequest
        { baseURL := "https://api.morgen.so/v3"
          headers := [("Authorization", "ApiKey \x7bAPI_KEY\x7d"),
                      ("Content-Type", "application/json")]
          envAPIKey := "MORGEN_API_KEY"
          calendarsToIgnore := [] } "sk-123").headers
      = [("Authorization", "ApiKey \x7bAPI_KEY\x7d"),
         ("Content-Type", "application/json")].map (substAuthHeader "sk-123") :=
  (c8_amended_substitution_only_in_authorization
    { baseURL := "https://api.morgen.so/v3"
      headers := [("Authorization", "ApiKey \x7bAPI_KEY\x7d"),
                  ("Content-Type", "application/json")]
      envAPIKey := "MORGEN_API_KEY"
      calendarsToIgnore := [] }
    "sk-123" ⟨2024, 1, 2, 0, 0, 0, 0, 0⟩ ⟨2024, 1, 3, 0, 0, 0, 0, 0⟩
    "acct1" ["cal1"] (by decide)).1

/-- C8 counterexample.  A configured header named other than
`Authorization` whose value contains the placeholder token is sent
verbatim — the key is not substituted into it — refuting "substituted into
every configured header value that contains the placeholder token,
regardless of which header the value belongs to". -/
theorem c8_counterexample_non_authorization_header :
    (calendarsRequest
        { baseURL := "https://api.morgen.so/v3"
          headers := [("X-Api-Key", "ApiKey \x7bAPI_KEY\x7d")]
          envAPIKey := "MORGEN_API_KEY"
          calendarsToIgnore := [] } "sk-123").headers
      = [("X-Api-Key", "ApiKey \x7bAPI_KEY\x7d")]
    ∧ strContainsSub "ApiKey \x7bAPI_KEY\x7d" "\x7bAPI_KEY\x7d" = true
    ∧ strReplaceFirst "ApiKey \x7bAPI_KEY\x7d" "\x7bAPI_KEY\x7d" "sk-123"
      ≠ "ApiKey \x7bAPI_KEY\x7d" := by
  refine ⟨by decide, by decide, by decide⟩

/-! ## Theorems: duration-failure handling (claim C3) and formatting (claim C9) -/

/-- C3.  Evaluation of the conversion loop at a raw event whose ISO-8601
duration string does not parse: the event is *dropped* from the result,
not kept with a zero duration — the zone and start time of the very same
event are fine, as the second conjunct shows by flipping only the duration
to `"PT1H"`, under which the event is kept.  (In the Go source the
drop happens in a leftover `if err != nil` block after the duration error
was already logged; on that path `dur` is nil, so the intervening
`dur.ToDuration()` call would in fact dereference nil.) -/
theorem c3_unparseable_duration_drops_event :
    iso8601FromString "bogus" = none
    ∧ convertMorgenEvents (fun n => if n = "UTC" then some 0 else none) 0
        [MorgenEvent.mk "1" "Standup" "2024-01-02T09:00:00" "bogus" "UTC" "" "desc" "loc"]
      = []
    ∧ convertMorgenEvents (fun n => if n = "UTC" then some 0 else none) 0
        [MorgenEvent.mk "1" "Standup" "2024-01-02T09:00:00" "PT1H" "UTC" "" "desc" "loc"]
      = [CalendarEvent.mk "1" "Standup" ⟨2024, 1, 2, 9, 0, 0, 0, 0⟩
          ⟨2024, 1, 2, 10, 0, 0, 0, 0⟩ "desc" "loc" []] := by
  refine ⟨by decide, by decide, by decide⟩

/-- Helper: a pattern is a substring of any list it prefixes. -/
theorem listHasSub_of_pref {l p : List Char} (h : listHasPref l p = true) :
    listHasSub l p = true := by
  cases l with
  | nil => simpa [listHasSub] using h
  | cons c t => simp [listHasSub, h]

/-- Helper: the empty pattern prefixes anything. -/
theorem listHasPref_nil (l : List Char) : listHasPref l [] = true := by
  cases l <;> rfl

/-- Helper: any list prefixes its own extensions. -/
theorem listHasPref_append (p r : List Char) : listHasPref (p ++ r) p = true := by
  induction p with
  | nil => simp [listHasPref_nil]
  | cons c t ih => simp [listHasPref, ih]

/-- Helper: substring occurrence is preserved by prepending. -/
theorem listHasSub_append_left (x : List Char) {m p : List Char}
    (h : listHasSub m p = true) : listHasSub (x ++ m) p = true := by
  induction x with
  | nil => simpa
  | cons c t ih =>
    rw [List.cons_append]
    simp only [listHasSub]
    rw [ih]
    simp

/-- Rendering a template whose top-level nodes include an unconditional
`Title` action yields the title as a substring of the output (a `Title`
action nested inside a conditional's branches is not a top-level node and
is not covered — deliberately, see the C9 counterexample). -/
theorem execTemplate_contains_title (timeFormat : String) (event : CalendarEvent) :
    ∀ nodes : List TemplateNode, TemplateNode.field .title ∈ nodes →
      listHasSub (execTemplate timeFormat event nodes).data event.title.data = true := by
  intro nodes
  induction nodes with
  | nil => intro h; cases h
  | cons n rest ih =>
    intro h
    rcases List.mem_cons.mp h with h1 | h2
    · subst h1
      have hd : (execTemplate timeFormat event (.field .title :: rest)).data
          = event.title.data ++ (execTemplate timeFormat event rest).data := by
        simp [execTemplate, renderField]
      rw [hd]
      exact listHasSub_of_pref (listHasPref_append _ _)
    · cases n with
      | text s =>
        have hd : (execTemplate timeFormat event (.text s :: rest)).data
            = s.data ++ (execTemplate timeFormat event rest).data := by
          simp [execTemplate]
        rw [hd]
        exact listHasSub_append_left _ (ih h2)
      | field f =>
        have hd : (execTemplate timeFormat event (.field f :: rest)).data
            = (renderField timeFormat event f).data
              ++ (execTemplate timeFormat event rest).data := by
          simp [execTemplate]
        rw [hd]
        exact listHasSub_append_left _ (ih h2)
      | cond f thenNodes elseNodes =>
        have hd : (execTemplate timeFormat event (.cond f thenNodes elseNodes :: rest)).data
            = (if renderField timeFormat event f ≠ "" then
                execTemplate timeFormat event thenNodes
               else execTemplate timeFormat event elseNodes).data
              ++ (execTemplate timeFormat event rest).data := by
          simp [execTemplate]
        rw [hd]
        exact listHasSub_append_left _ (ih h2)

/-- C9 (amended).  For every valid time format and every event template
that parses to a node sequence containing a top-level, unconditional
`Title` field action — as the default template and the README's example
templates do — `FormatEvent` output contains the event's title verbatim as
a substring.  Arbitrary valid templates need not: a template may not
reference the title at all, and a `Title` action occurring only inside a
conditional renders nothing when the condition is falsy (both in the
counterexample). -/
theorem c9_amended_title_verbatim_when_referenced
    (timeFormat eventTemplateStr : String) (f : EventFormatter)
    (event : CalendarEvent)
    (hparse : NewEventFormatter timeFormat eventTemplateStr = some f)
    (htitle : TemplateNode.field .title ∈ f.eventTemplate) :
    strContainsSub (FormatEvent f event) event.title = true :=
  execTemplate_contains_title f.timeFormat event f.eventTemplate htitle

/-- Witness for C9 at a concrete input: the default template and time
format. -/
theorem c9_amended_title_verbatim_when_referenced_witness :
    strContainsSub
      (FormatEvent
        (EventFormatter.mk "15:04"
          [.text "- ", .field .startTimeFormatted, .text "-",
           .field .endTimeFormatted, .text ": ", .field .title])
        (CalendarEvent.mk "1" "Standup" ⟨2024, 1, 2, 9, 0, 0, 0, 0⟩
          ⟨2024, 1, 2, 10, 0, 0, 0, 0⟩ "" "" []))
      "Standup" = true :=
  c9_amended_title_verbatim_when_referenced "15:04" DefaultConfig.eventTemplate
    (EventFormatter.mk "15:04"
      [.text "- ", .field .startTimeFormatted, .text "-",
       .field .endTimeFormatted, .text ": ", .field .title])
    (CalendarEvent.mk "1" "Standup" ⟨2024, 1, 2, 9, 0, 0, 0, 0⟩
      ⟨2024, 1, 2, 10, 0, 0, 0, 0⟩ "" "" [])
    (by rfl)
    (.tail _ (.tail _ (.tail _ (.tail _ (.tail _ (.head _))))))

/-- C9 counterexample, two refuting instances of the original claim.
First, a valid template need not reference the title: the literal template
`"agenda"` formats an event titled `"Standup"` to output not containing
the title.  Second — justifying the "unconditional" qualifier of the
amendment — the valid template
`\x7b\x7bif .Location\x7d\x7d\x7b\x7b.Title\x7d\x7d\x7b\x7bend\x7d\x7d`
does contain a `.Title` action, yet on an event with an empty location it
renders the empty string, again omitting the title. -/
theorem c9_counterexample_template_without_title :
    NewEventFormatter "15:04" "agenda" = some (EventFormatter.mk "15:04" [.text "agenda"])
    ∧ FormatEvent (EventFormatter.mk "15:04" [.text "agenda"])
        (CalendarEvent.mk "1" "Standup" ⟨2024, 1, 2, 9, 0, 0, 0, 0⟩
          ⟨2024, 1, 2, 10, 0, 0, 0, 0⟩ "" "" []) = "agenda"
    ∧ strContainsSub "agenda" "Standup" = false
    ∧ NewEventFormatter "15:04" "\x7b\x7bif .Location\x7d\x7d\x7b\x7b.Title\x7d\x7d\x7b\x7bend\x7d\x7d"
      = some (EventFormatter.mk "15:04" [.cond .location [.field .title] []])
    ∧ FormatEvent (EventFormatter.mk "15:04" [.cond .location [.field .title] []])
        (CalendarEvent.mk "1" "Standup" ⟨2024, 1, 2, 9, 0, 0, 0, 0⟩
          ⟨2024, 1, 2, 10, 0, 0, 0, 0⟩ "" "" []) = ""
    ∧ strContainsSub "" "Standup" = false := by
  refine ⟨by rfl, ?_, by decide, by rfl, ?_, by decide⟩
  · simp [FormatEvent, execTemplate]
  · simp [FormatEvent, execTemplate, renderField]
